import Mathlib

/-!
Shallow embedding of `src/fenlei.py` (transform → partition → export
pipeline).  The program reads an Excel sheet into a pandas DataFrame,
remaps each row into a fixed 29-column target schema, partitions the
rows by the value of one grouping column (the app fixes it to "区域"),
serializes one spreadsheet per distinct non-missing group value and
packs them into a zip archive.

Cells are modelled by `Value` (text, number, or date/time); a missing
cell (pandas `NaN` / absent column) is `Option.none`.  Numbers are
modelled by `ℚ` (the claims are about the arithmetic structure of the
derivations, not binary floating point).  A DataFrame is a list of
rows plus its header column list; `df[col]` on a column not in the
header raises `KeyError`, which the pipeline's `try`/`except` turns
into an error return, so the pipeline is `Except`-valued.
-/

/-- A calendar date/time, the payload of a pandas `Timestamp` /
`datetime.datetime` cell. -/
structure DateTime where
  year : Nat
  month : Nat
  day : Nat
  hour : Nat
  minute : Nat
  second : Nat
deriving DecidableEq, Repr

/-- A scalar cell value: text, numeric, or date/time.  A missing cell is
represented by `Option.none` at use sites. -/
inductive Value where
  | s (str : String)
  | n (q : ℚ)
  | t (dt : DateTime)
deriving DecidableEq, Repr

/-- A source record: an association list from column name to cell value.
An absent key models both "column absent" and "cell is NaN", which the
program treats identically (`row.get` / `pd.notna`). -/
def Row : Type := List (String × Value)

/-- `row.get(col)` on a pandas row: the cell value, or missing. -/
def Row.get (r : Row) (c : String) : Option Value :=
  List.lookup c r

/-- A DataFrame: header columns plus rows.  `cols` is the header of the
sheet that was read; `df[c]` fails when `c ∉ cols`. -/
structure DF where
  cols : List String
  rows : List Row

/-- The fixed 29-column target schema `TARGET_COLUMNS` of `fenlei.py`
(lines 17-24), in source order. -/
def TARGET_COLUMNS : List String := [
  "装货单编号", "卸货单编号", "司机", "手机号", "车牌号", "挂车",
  "装车量(吨)", "卸货量(吨)", "装车时间", "卸货时间", "司机运费单价",
  "发货单位名称", "发货单位证件号", "发货点简称", "发货(省)", "发货(市)",
  "发货(区)", "发货详细地址", "发货联系人", "发货联系人电话",
  "收货单位名称", "收货单位证件号", "收获地址简称", "收货(省)", "收货(市)",
  "收货(区)", "收货详细地址", "收货联系人", "收货联系人电话"]

/-- Zero-padded decimal rendering (`strftime` field padding). -/
def padNum (width n : Nat) : String :=
  let s := toString n
  String.mk (List.replicate (width - s.length) '0') ++ s

/-- `strftime("%Y/%m/%d %H:%M")` (line 57). -/
def formatDT (dt : DateTime) : String :=
  padNum 4 dt.year ++ "/" ++ padNum 2 dt.month ++ "/" ++ padNum 2 dt.day
    ++ " " ++ padNum 2 dt.hour ++ ":" ++ padNum 2 dt.minute

/-- The timestamp rule of lines 54-59: a recognized date/time value is
reformatted; any other value (including a missing one) is passed through
unchanged. -/
def fmtTime : Option Value → Option Value
  | some (Value.t dt) => some (Value.s (formatDT dt))
  | v => v

/-- Decimal digits of a numeral, little help for parsing:
`digitsToNat ['1','2']` = 12. -/
def digitsToNat (l : List Char) : Nat :=
  l.foldl (fun a c => a * 10 + (c.toNat - 48)) 0

/-- Parsing of a decimal text numeral, modelling what
`pd.to_numeric(errors="coerce")` does on a string cell: optional
surrounding spaces, optional sign, digits with an optional fraction
part; anything else coerces to missing.  (Exponent and hexadecimal
forms, which no claim involves, are not modelled.) -/
def parseDec (s : String) : Option ℚ :=
  let l := (s.toList.dropWhile (fun c => c = ' '))
  let l := ((l.reverse.dropWhile (fun c => c = ' ')).reverse)
  let signAndRest : ℚ × List Char :=
    match l with
    | '-' :: rest => (-1, rest)
    | '+' :: rest => (1, rest)
    | _ => (1, l)
  let sign := signAndRest.1
  let body := signAndRest.2
  let intPart := body.takeWhile Char.isDigit
  let rest := body.dropWhile Char.isDigit
  match rest with
  | [] =>
    if intPart.isEmpty then none
    else some (sign * (digitsToNat intPart : ℚ))
  | '.' :: frac =>
    if frac.all Char.isDigit && !(intPart.isEmpty && frac.isEmpty) then
      some (sign * ((digitsToNat intPart : ℚ)
        + (digitsToNat frac : ℚ) / ((10 : ℚ) ^ frac.length)))
    else none
  | _ => none

/-- `pd.to_numeric(cell, errors="coerce")` on the cell kinds arising
here: a numeric cell is itself, a text cell is parsed, anything else
(missing, date/time) coerces to missing.  Total: it never raises. -/
def toNumeric : Option Value → Option ℚ
  | some (Value.n q) => some q
  | some (Value.s str) => parseDec str
  | _ => none

/-- The derived driver-tariff cell of lines 76-81:
`里程 * 单价` when both coerce, else `None`. -/
def tariffVal (row : Row) : Option Value :=
  match toNumeric (row.get "里程"), toNumeric (row.get "司机运输单价（人民币）") with
  | some m, some p => some (Value.n (m * p))
  | _, _ => none

/-- The `new_row` dictionary built for one source row (lines 47-84), as
a function from target label to cell.  The final assignment
`new_row[group_by_column] = row.get(group_by_column)` overwrites any
earlier assignment to the same key (Python dict semantics), hence the
leading `c = g` test. -/
def newRowFun (g : String) (row : Row) (c : String) : Option Value :=
  if c = g then row.get g
  else if c = "司机" then row.get "司机姓名（收款人）"
  else if c = "手机号" then row.get "司机手机号码（收款人）"
  else if c = "车牌号" then row.get "车牌"
  else if c = "装车时间" then fmtTime (row.get "装车时间")
  else if c = "卸货时间" then fmtTime (row.get "卸货时间")
  else if c = "收货单位名称" then row.get "货主名称"
  else if c = "收获地址简称" then row.get "货主名称"
  else if c = "收货联系人" then row.get "货主名称"
  else if c = "装车量(吨)" then row.get "司机装货数量"
  else if c = "卸货量(吨)" then row.get "司机装货数量"
  else if c = "司机运费单价" then tariffVal row
  else none

/-- One mapped record after
`df_target.reindex(columns=TARGET_COLUMNS + [group_by_column])`
(line 87): a cell for every label of `TARGET_COLUMNS ++ [g]`, missing
where `new_row` had no entry. -/
def targetRecord (g : String) (r : Row) : List (String × Option Value) :=
  (TARGET_COLUMNS ++ [g]).map (fun c => (c, newRowFun g r c))

/-- Cell of a mapped record at a target label (first occurrence when
the label is duplicated). -/
def trGet (tr : List (String × Option Value)) (c : String) : Option Value :=
  (List.lookup c tr).getD none

/-- Columns of `final_df_to_save` after
`drop(columns=[group_by_column])` (line 102): every column labelled `g`
is removed. -/
def finalColumns (g : String) : List String :=
  (TARGET_COLUMNS ++ [g]).filter (fun c => c ≠ g)

/-- Python's per-character `str.isalnum()`, modelled for the character
ranges this program can meet in group keys and in the fallback name:
ASCII alphanumerics and CJK Unified Ideographs (both classes are
alphanumeric for Python; its full Unicode table is wider, which no
claim here depends on). -/
def pyIsAlnum (c : Char) : Bool :=
  c.isAlphanum || (0x4E00 ≤ c.toNat && c.toNat ≤ 0x9FFF)

/-- The character filter of line 104: keep alphanumerics, spaces,
underscores and hyphens. -/
def keepChar (c : Char) : Bool :=
  pyIsAlnum c || c = ' ' || c = '_' || c = '-'

/-- `"".join([c for c in s if c.isalnum() or c in (' ', '_', '-')]).rstrip()`
(line 104).  After the filter the only whitespace left is the space, so
`rstrip()` drops exactly the trailing spaces. -/
def pySanitize (s : String) : String :=
  String.mk (((s.toList.filter keepChar).reverse.dropWhile (fun c => c = ' ')).reverse)

/-- Python `str()` of a group-key cell, the argument of the sanitizer
(line 104).  Text is itself; numerals and timestamps get a canonical
rendering (the program's group keys are text region names; no claim
depends on the exact numeric rendering, and every rendering feeds the
same character filter). -/
def Value.toStr : Value → String
  | .s str => str
  | .n q => toString q
  | .t dt =>
    padNum 4 dt.year ++ "-" ++ padNum 2 dt.month ++ "-" ++ padNum 2 dt.day
      ++ " " ++ padNum 2 dt.hour ++ ":" ++ padNum 2 dt.minute ++ ":" ++ padNum 2 dt.second

/-- The archive entry name for group value `v` at 1-based position `i`
(lines 104-108): the sanitized key, or the fallback
`未命名区域_{i}` when sanitization leaves nothing, plus `.xlsx`. -/
def entryName (v : Value) (i : Nat) : String :=
  (if pySanitize v.toStr = "" then "未命名区域_" ++ Nat.repr i
   else pySanitize v.toStr) ++ ".xlsx"

/-- One step of the first-seen scan behind `pandas.Series.unique`:
append a value the scan has not met yet. -/
def addIfNew (acc : List Value) (v : Value) : List Value :=
  if v ∈ acc then acc else acc ++ [v]

/-- First-seen deduplication, the order `pandas.Series.unique` keeps
(line 92). -/
def firstSeen (l : List Value) : List Value :=
  l.foldl addIfNew []

/-- `df_source[group_by_column].dropna().unique()` (line 92): the
distinct non-missing grouping values in first-seen order. -/
def uniqueGroupsOf (g : String) (df : DF) : List Value :=
  firstSeen (df.rows.filterMap (fun r => r.get g))

/-- One serialized spreadsheet: header row plus cell rows, as
`to_excel(index=False)` writes them (line 111). -/
structure Sheet where
  header : List String
  rows : List (List (Option Value))
deriving DecidableEq

/-- `df_source[df_source[group_by_column] == group_value]` (line 98):
the source rows whose grouping cell equals the group value (a missing
cell equals nothing). -/
def sourceGroupRows (g : String) (df : DF) (v : Value) : List Row :=
  df.rows.filter (fun r => r.get g = some v)

/-- `df_target[df_target[group_by_column] == group_value]` (line 101):
the mapped records whose carried grouping cell equals the group value. -/
def targetGroupRows (g : String) (df : DF) (v : Value) : List (List (String × Option Value)) :=
  (df.rows.map (targetRecord g)).filter (fun tr => trGet tr g = some v)

/-- Serialization of one group's `final_df_to_save` (lines 102, 111):
the kept columns in order, one cell row per record. -/
def sheetOf (g : String) (tgt : List (List (String × Option Value))) : Sheet :=
  { header := finalColumns g
    rows := tgt.map (fun tr => (finalColumns g).map (fun c => trGet tr c)) }

/-- The core pipeline of `transform_and_process` (lines 35-127): map
every row, compute the distinct non-missing grouping values, and emit
one named spreadsheet per group, in first-seen order.  Accessing a
grouping column that is not among the source columns raises `KeyError`
(line 92), which the surrounding `try`/`except` converts into an error
return with no archive. -/
def transform_and_process (g : String) (df : DF) : Except String (List (String × Sheet)) :=
  if g ∈ df.cols then
    Except.ok ((uniqueGroupsOf g df).enum.map (fun p =>
      (entryName p.2 (p.1 + 1), sheetOf g (targetGroupRows g df p.2))))
  else
    Except.error ("处理过程中发生严重错误: KeyError: " ++ g)

/-- The entry list of a pipeline result (empty on failure); the caller
gets entries only from a success. -/
def entriesOf (r : Except String (List (String × Sheet))) : List (String × Sheet) :=
  match r with
  | Except.ok es => es
  | Except.error _ => []

/-! ### Concrete inputs used by witnesses and counterexamples -/

/-- Two rows whose grouping keys differ but sanitize to the same file
name. -/
def dfC1 : DF :=
  { cols := ["区域"]
    rows := [[("区域", Value.s "A!")], [("区域", Value.s "A?")]] }

/-- A one-row dataset whose columns do not include the grouping column
"区域". -/
def dfC2bad : DF :=
  { cols := ["里程"]
    rows := [[("里程", Value.n 3)]] }

/-- A dataset whose header has the grouping column but whose single row
has no value for it. -/
def dfC2ok : DF :=
  { cols := ["区域", "里程"]
    rows := [[("里程", Value.n 3)]] }

/-- A minimal one-group dataset. -/
def dfC3 : DF :=
  { cols := ["区域"]
    rows := [[("区域", Value.s "A")]] }

/-- The entries the pipeline produces for `dfC3`. -/
def entriesC3 : List (String × Sheet) :=
  entriesOf (transform_and_process "区域" dfC3)

/-- A row with numeric mileage and unit price cells. -/
def rowC4 : Row :=
  [("里程", Value.n 10), ("司机运输单价（人民币）", Value.n 3)]

/-- A row carrying a consignor/owner name. -/
def rowC5 : Row := [("货主名称", Value.s "甲公司")]

/-- A row whose load-time cell is a recognized date/time value. -/
def rowC8 : Row := [("装车时间", Value.t ⟨2024, 3, 5, 7, 9, 0⟩)]

/-- The example scenario of the spec: three rows with grouping values
"A", "A", "B" (the second missing its unit price) plus one row with a
missing grouping value. -/
def dfDemo : DF :=
  { cols := ["区域", "司机装货数量", "里程", "司机运输单价（人民币）", "货主名称"]
    rows := [
      [("区域", Value.s "A"), ("司机装货数量", Value.n 10), ("里程", Value.n 10),
        ("司机运输单价（人民币）", Value.n 10), ("货主名称", Value.s "X")],
      [("区域", Value.s "A"), ("司机装货数量", Value.n 20), ("里程", Value.n 7)],
      [("区域", Value.s "B"), ("司机装货数量", Value.n 5), ("里程", Value.s "25"),
        ("司机运输单价（人民币）", Value.s "2")],
      [("司机装货数量", Value.n 9)]] }

/-- The entries the pipeline produces for `dfDemo`. -/
def entriesDemo : List (String × Sheet) :=
  entriesOf (transform_and_process "区域" dfDemo)

/-- Index set of the records belonging to group value `v`: the row
positions whose grouping cell equals `v`. -/
def groupIdxSet (g : String) (df : DF) (v : Value) : Finset ℕ :=
  (Finset.range df.rows.length).filter
    (fun i => (df.rows.getD i ([] : Row)).get g = some v)

/-! ### Helper lemmas about the embedding -/

theorem lookup_map_self (f : String → Option Value) (c : String) (l : List String) :
    List.lookup c (l.map (fun x => (x, f x))) = if c ∈ l then some (f c) else none := by
  induction l with
  | nil => simp
  | cons x l ih =>
    by_cases h : c = x
    · subst h
      simp [List.lookup_cons]
    · rw [List.map_cons, List.lookup_cons]
      rw [show (c == x) = false by simpa using h]
      simp only [List.mem_cons, h, false_or, ih]

theorem trGet_targetRecord (g : String) (r : Row) (c : String) :
    trGet (targetRecord g r) c =
      if c ∈ TARGET_COLUMNS ++ [g] then newRowFun g r c else none := by
  unfold trGet targetRecord
  rw [lookup_map_self]
  by_cases h : c ∈ TARGET_COLUMNS ++ [g] <;> simp [h]

theorem trGet_targetRecord_g (g : String) (r : Row) :
    trGet (targetRecord g r) g = r.get g := by
  rw [trGet_targetRecord]
  simp [newRowFun]

theorem mem_addIfNew (x v : Value) (acc : List Value) :
    x ∈ addIfNew acc v ↔ x ∈ acc ∨ x = v := by
  unfold addIfNew
  by_cases h : v ∈ acc
  · rw [if_pos h]
    constructor
    · exact Or.inl
    · rintro (hx | rfl)
      · exact hx
      · exact h
  · rw [if_neg h]
    simp [List.mem_append]

theorem mem_foldl_addIfNew (x : Value) :
    ∀ (l acc : List Value), x ∈ l.foldl addIfNew acc ↔ x ∈ acc ∨ x ∈ l := by
  intro l
  induction l with
  | nil => intro acc; simp
  | cons v vs ih =>
    intro acc
    rw [List.foldl_cons, ih, mem_addIfNew]
    simp only [List.mem_cons]
    tauto

theorem mem_firstSeen (x : Value) (l : List Value) : x ∈ firstSeen l ↔ x ∈ l := by
  unfold firstSeen
  rw [mem_foldl_addIfNew]
  simp

theorem nodup_addIfNew (v : Value) (acc : List Value) (h : acc.Nodup) :
    (addIfNew acc v).Nodup := by
  unfold addIfNew
  by_cases hv : v ∈ acc
  · rwa [if_pos hv]
  · rw [if_neg hv]
    exact List.Nodup.append h (List.nodup_singleton v)
      (fun a ha hav => hv ((List.mem_singleton.mp hav) ▸ ha))

theorem nodup_foldl_addIfNew :
    ∀ (l acc : List Value), acc.Nodup → (l.foldl addIfNew acc).Nodup := by
  intro l
  induction l with
  | nil => intro acc h; simpa
  | cons v vs ih =>
    intro acc h
    rw [List.foldl_cons]
    exact ih _ (nodup_addIfNew v acc h)

theorem nodup_firstSeen (l : List Value) : (firstSeen l).Nodup :=
  nodup_foldl_addIfNew l [] List.nodup_nil

theorem sum_map_add_aux (vs : List Value) (f h : Value → Nat) :
    (vs.map (fun v => f v + h v)).sum = (vs.map f).sum + (vs.map h).sum := by
  induction vs with
  | nil => simp
  | cons v vs ih =>
    simp only [List.map_cons, List.sum_cons, ih]
    omega

theorem sum_map_indicator_zero (w : Value) :
    ∀ (vs : List Value), w ∉ vs →
      (vs.map (fun v => if w = v then (1:Nat) else 0)).sum = 0 := by
  intro vs
  induction vs with
  | nil => simp
  | cons v vs ih =>
    intro hw
    have h1 : ¬ w = v := fun h => hw (h ▸ List.mem_cons_self _ _)
    have h2 : w ∉ vs := fun h => hw (List.mem_cons_of_mem _ h)
    simp [h1, ih h2]

theorem sum_map_indicator_one (w : Value) :
    ∀ (vs : List Value), vs.Nodup → w ∈ vs →
      (vs.map (fun v => if w = v then (1:Nat) else 0)).sum = 1 := by
  intro vs
  induction vs with
  | nil => simp
  | cons v vs ih =>
    intro hnd hw
    rcases List.mem_cons.mp hw with h | h
    · subst h
      have : w ∉ vs := (List.nodup_cons.mp hnd).1
      simp [sum_map_indicator_zero w vs this]
    · have h1 : ¬ w = v := by
        intro hc
        exact (List.nodup_cons.mp hnd).1 (hc ▸ h)
      simp [h1, ih (List.nodup_cons.mp hnd).2 h]

theorem sum_group_counts (g : String) (vs : List Value) (hnd : vs.Nodup) :
    ∀ (rows : List Row), (∀ r ∈ rows, ∀ w, r.get g = some w → w ∈ vs) →
      (vs.map (fun v => (rows.filter (fun r => r.get g = some v)).length)).sum
        = (rows.filter (fun r => (r.get g).isSome)).length := by
  intro rows
  induction rows with
  | nil => simp
  | cons r rows ih =>
    intro hcov
    have ih' := ih (fun r' hr' => hcov r' (List.mem_cons_of_mem _ hr'))
    cases hr : r.get g with
    | none =>
      have hterm : ∀ v ∈ vs,
          ((r :: rows).filter (fun r' => r'.get g = some v)).length
            = (rows.filter (fun r' => r'.get g = some v)).length := by
        intro v _
        simp [List.filter_cons, hr]
      rw [List.map_congr_left (fun v hv => hterm v hv), ih']
      simp [List.filter_cons, hr]
    | some w =>
      have hw : w ∈ vs := hcov r (List.mem_cons_self _ _) w hr
      have hterm : ∀ v ∈ vs,
          ((r :: rows).filter (fun r' => r'.get g = some v)).length
            = (if w = v then 1 else 0)
              + (rows.filter (fun r' => r'.get g = some v)).length := by
        intro v _
        by_cases hwv : w = v
        · subst hwv
          simp [List.filter_cons, hr]
          omega
        · simp [List.filter_cons, hr, hwv]
      rw [List.map_congr_left (fun v hv => hterm v hv)]
      rw [sum_map_add_aux vs (fun v => if w = v then 1 else 0)
        (fun v => (rows.filter (fun r' => r'.get g = some v)).length)]
      rw [sum_map_indicator_one w vs hnd hw, ih']
      simp [List.filter_cons, hr]
      omega

theorem mem_uniqueGroupsOf (g : String) (df : DF) (r : Row) (w : Value)
    (hr : r ∈ df.rows) (hw : r.get g = some w) : w ∈ uniqueGroupsOf g df := by
  unfold uniqueGroupsOf
  exact (mem_firstSeen w _).mpr (List.mem_filterMap.mpr ⟨r, hr, hw⟩)

theorem sum_counts_uniqueGroups (g : String) (df : DF) :
    ((uniqueGroupsOf g df).map
        (fun v => (df.rows.filter (fun r => r.get g = some v)).length)).sum
      = (df.rows.filter (fun r => (r.get g).isSome)).length := by
  apply sum_group_counts g (uniqueGroupsOf g df) (nodup_firstSeen _)
  intro r hr w hw
  exact mem_uniqueGroupsOf g df r w hr hw

theorem targetGroupRows_length (g : String) (df : DF) (v : Value) :
    (targetGroupRows g df v).length = (sourceGroupRows g df v).length := by
  unfold targetGroupRows sourceGroupRows
  rw [List.filter_map, List.length_map]
  congr 1
  apply List.filter_congr
  intro r _
  simp [Function.comp, trGet_targetRecord_g]

theorem finalColumns_of_not_mem (g : String) (hg : g ∉ TARGET_COLUMNS) :
    finalColumns g = TARGET_COLUMNS := by
  unfold finalColumns
  rw [List.filter_append]
  have h1 : TARGET_COLUMNS.filter (fun c => c ≠ g) = TARGET_COLUMNS :=
    List.filter_eq_self.mpr (fun a ha => by
      simp only [decide_eq_true_eq]
      exact fun h => hg (h ▸ ha))
  have h2 : List.filter (fun c => c ≠ g) [g] = [] := by simp
  rw [h1, h2, List.append_nil]

theorem trGet_eq_newRowFun (g : String) (row : Row) (c : String)
    (hc : c ∈ TARGET_COLUMNS) :
    trGet (targetRecord g row) c = newRowFun g row c := by
  rw [trGet_targetRecord, if_pos (List.mem_append_left _ hc)]

theorem sheetOf_row_length (g : String) (tgt : List (List (String × Option Value))) :
    ∀ row ∈ (sheetOf g tgt).rows, row.length = (finalColumns g).length := by
  intro row hrow
  rcases List.mem_map.mp hrow with ⟨tr, _, rfl⟩
  exact List.length_map _ _

theorem mapped_nonmissing_length (g : String) (df : DF) :
    ((df.rows.map (targetRecord g)).filter (fun tr => (trGet tr g).isSome)).length
      = (df.rows.filter (fun r => (r.get g).isSome)).length := by
  rw [List.filter_map, List.length_map]
  congr 1
  apply List.filter_congr
  intro r _
  simp [Function.comp, trGet_targetRecord_g]

theorem digitChar_isDigit : ∀ m, m < 10 → (Nat.digitChar m).isDigit = true := by decide

theorem toDigitsCore_digits (fuel : Nat) :
    ∀ (n : Nat) (acc : List Char), (∀ c ∈ acc, c.isDigit = true) →
      ∀ c ∈ Nat.toDigitsCore 10 fuel n acc, c.isDigit = true := by
  induction fuel with
  | zero =>
    intro n acc hacc c hc
    exact hacc c hc
  | succ fuel ih =>
    intro n acc hacc c hc
    rw [Nat.toDigitsCore] at hc
    by_cases h : n / 10 = 0
    · rw [if_pos h] at hc
      rcases List.mem_cons.mp hc with rfl | hc
      · exact digitChar_isDigit _ (Nat.mod_lt _ (by omega))
      · exact hacc c hc
    · rw [if_neg h] at hc
      refine ih (n / 10) _ ?_ c hc
      intro c' hc'
      rcases List.mem_cons.mp hc' with rfl | hc'
      · exact digitChar_isDigit _ (Nat.mod_lt _ (by omega))
      · exact hacc c' hc'

theorem repr_digits (n : Nat) : ∀ c ∈ (Nat.repr n).data, c.isDigit = true := by
  intro c hc
  exact toDigitsCore_digits (n + 1) n [] (by simp) c hc

theorem isDigit_keepChar (c : Char) (h : c.isDigit = true) : keepChar c = true := by
  simp [keepChar, pyIsAlnum, Char.isAlphanum, h]

theorem mem_pySanitize_keep (s : String) (c : Char) (hc : c ∈ (pySanitize s).data) :
    keepChar c = true := by
  have h0 : c ∈ (((s.toList.filter keepChar).reverse.dropWhile (fun c => c = ' ')).reverse) := hc
  have h1 := List.mem_reverse.mp h0
  have h2 := (List.dropWhile_sublist _).subset h1
  have h3 := List.mem_reverse.mp h2
  exact List.of_mem_filter h3

/-! ### Claim theorems -/

/-- Claim C1 (counterexample): the group keys "A!" and "A?" are
distinct, yet both archive entries they produce are named "A.xlsx":
sanitization is not injective on non-empty results, so entry names are
not unique within the archive. -/
theorem C1_counterexample :
    Value.s "A!" ≠ Value.s "A?"
      ∧ (entriesOf (transform_and_process "区域" dfC1)).map Prod.fst
          = ["A.xlsx", "A.xlsx"] :=
  ⟨by decide, rfl⟩

/-- Claim C1 (amended): for every group key the archive entry name is a
non-empty stem of alphanumerics, spaces, underscores and hyphens
followed by the ".xlsx" suffix (an empty sanitization result is
replaced by the fallback built from the fixed prefix and the group's
1-based sequence number); distinct group keys, however, may yield the
same entry name when sanitization collapses them to the same non-empty
stem, so uniqueness within the archive is not guaranteed. -/
theorem C1_amended (v : Value) (i : Nat) :
    ∃ stem : String,
      entryName v i = stem ++ ".xlsx" ∧ stem ≠ ""
        ∧ ∀ c ∈ stem.data, keepChar c = true := by
  unfold entryName
  by_cases h : pySanitize v.toStr = ""
  · refine ⟨"未命名区域_" ++ Nat.repr i, by rw [if_pos h], ?_, ?_⟩
    · intro hEq
      have hlen : ("未命名区域_" ++ Nat.repr i).data.length = 0 := by
        rw [hEq]
        decide
      rw [String.data_append, List.length_append] at hlen
      have h6 : ("未命名区域_" : String).data.length = 6 := by decide
      omega
    · intro c hc
      rw [String.data_append] at hc
      rcases List.mem_append.mp hc with hc | hc
      · have hall : ∀ c ∈ ("未命名区域_" : String).data, keepChar c = true := by decide
        exact hall c hc
      · exact isDigit_keepChar c (repr_digits i c hc)
  · exact ⟨pySanitize v.toStr, by rw [if_neg h], h,
      fun c hc => mem_pySanitize_keep v.toStr c hc⟩

/-- Claim C2 (counterexample): on a non-empty dataset whose columns do
not include the grouping column, the pipeline signals an error (the
`KeyError` of line 92 is caught by the `try`/`except`) instead of
producing an empty archive. -/
theorem C2_counterexample :
    transform_and_process "区域" dfC2bad
      = Except.error ("处理过程中发生严重错误: KeyError: " ++ "区域") := rfl

/-- Claim C2 (amended): if the grouping column is among the dataset's
columns but its value is missing in every record, the pipeline
succeeds with zero groups and an archive with zero entries; if the
grouping column is absent from the dataset's columns, the run aborts
with an error instead. -/
theorem C2_amended (g : String) (df : DF) (hg : g ∈ df.cols)
    (hmiss : ∀ r ∈ df.rows, r.get g = none) :
    transform_and_process g df = Except.ok [] := by
  unfold transform_and_process
  rw [if_pos hg]
  have hu : uniqueGroupsOf g df = [] := by
    unfold uniqueGroupsOf
    have hnil : df.rows.filterMap (fun r => r.get g) = [] :=
      List.filterMap_eq_nil_iff.mpr hmiss
    rw [hnil]
    rfl
  rw [hu]
  rfl

/-- Claim C2 (witness): the amended statement at a concrete dataset
whose header has "区域" but whose single row has no value for it. -/
theorem C2_witness :
    (("区域" : String) ∈ dfC2ok.cols ∧ ∀ r ∈ dfC2ok.rows, r.get "区域" = none)
      ∧ transform_and_process "区域" dfC2ok = Except.ok [] :=
  ⟨⟨by decide, by decide⟩, C2_amended "区域" dfC2ok (by decide) (by decide)⟩

/-- Claim C3 (counterexample): the exported spreadsheet for a concrete
one-group dataset has 29 header columns, not 28: `TARGET_COLUMNS` has
29 entries, so the claim's count is off by one. -/
theorem C3_counterexample :
    (entriesOf (transform_and_process "区域" dfC3)).map (fun e => e.2.header.length)
        = [29]
      ∧ (29 : Nat) ≠ 28 :=
  ⟨rfl, by decide⟩

/-- Claim C3 (amended): for every dataset, when the grouping column is
not itself one of the target labels (the deployed grouping column
"区域" is not), every exported sheet contains exactly the 29
TargetSchema columns in their fixed order, every data row has exactly
one cell per schema column, and the grouping-column carrier never
appears in an output file. -/
theorem C3_amended (g : String) (df : DF) (entries : List (String × Sheet))
    (hg : g ∉ TARGET_COLUMNS)
    (hok : transform_and_process g df = Except.ok entries) :
    ∀ e ∈ entries,
      e.2.header = TARGET_COLUMNS ∧ TARGET_COLUMNS.length = 29
        ∧ g ∉ e.2.header
        ∧ ∀ row ∈ e.2.rows, row.length = TARGET_COLUMNS.length := by
  intro e he
  unfold transform_and_process at hok
  by_cases hcol : g ∈ df.cols
  · rw [if_pos hcol] at hok
    injection hok with hok
    subst hok
    rcases List.mem_map.mp he with ⟨p, _, rfl⟩
    have hhd : (sheetOf g (targetGroupRows g df p.2)).header = TARGET_COLUMNS := by
      show finalColumns g = TARGET_COLUMNS
      exact finalColumns_of_not_mem g hg
    refine ⟨hhd, by decide, ?_, ?_⟩
    · rw [hhd]
      exact hg
    · intro row hrow
      have hlen := sheetOf_row_length g (targetGroupRows g df p.2) row hrow
      rw [hlen, finalColumns_of_not_mem g hg]
  · rw [if_neg hcol] at hok
    exact absurd hok (by simp)

/-- Claim C3 (witness): the amended statement at the concrete one-group
dataset `dfC3`. -/
theorem C3_witness :
    (("区域" : String) ∉ TARGET_COLUMNS)
      ∧ ∀ e ∈ entriesC3,
          e.2.header = TARGET_COLUMNS ∧ TARGET_COLUMNS.length = 29
            ∧ "区域" ∉ e.2.header
            ∧ ∀ row ∈ e.2.rows, row.length = TARGET_COLUMNS.length :=
  ⟨by decide, C3_amended "区域" dfC3 entriesC3 (by decide) rfl⟩

/-- Claim C4: for every source record, if both the mileage field and
the unit-price field coerce to numeric values m and p, the derived
driver-tariff target field equals m × p; if either is missing or does
not coerce to a number, the derived tariff field is missing.  The
coercion `toNumeric` is a total function, so it never raises.  (The
hypothesis on the grouping column keeps it from overwriting the tariff
label in the mapped record; the deployed grouping column "区域"
satisfies it.) -/
theorem C4_tariff_product (g : String) (row : Row) (hg : g ≠ "司机运费单价") :
    (∀ m p : ℚ, toNumeric (row.get "里程") = some m
      → toNumeric (row.get "司机运输单价（人民币）") = some p
      → trGet (targetRecord g row) "司机运费单价" = some (Value.n (m * p)))
    ∧ ((toNumeric (row.get "里程") = none
        ∨ toNumeric (row.get "司机运输单价（人民币）") = none)
      → trGet (targetRecord g row) "司机运费单价" = none) := by
  have htr : trGet (targetRecord g row) "司机运费单价" = tariffVal row := by
    rw [trGet_eq_newRowFun _ _ _ (by decide)]
    unfold newRowFun
    rw [if_neg (fun hcg => hg hcg.symm)]
    rfl
  constructor
  · intro m p hm hp
    rw [htr]
    unfold tariffVal
    rw [hm, hp]
  · intro hmiss
    rw [htr]
    unfold tariffVal
    rcases hmiss with hmm | hmm
    · rw [hmm]
    · rw [hmm]
      cases toNumeric (row.get "里程") <;> rfl

/-- Claim C4 (witness): a concrete row whose mileage is 10 and whose
unit price is 3; the derived tariff is their product. -/
theorem C4_witness :
    toNumeric (rowC4.get "里程") = some 10
      ∧ toNumeric (rowC4.get "司机运输单价（人民币）") = some (3 : ℚ)
      ∧ trGet (targetRecord "区域" rowC4) "司机运费单价"
          = some (Value.n (10 * (3 : ℚ))) :=
  ⟨rfl, rfl,
    (C4_tariff_product "区域" rowC4 (by decide)).1 10 3 rfl rfl⟩

/-- Claim C5: for every source record, the three broadcast target
fields (consignee unit name, consignee short address label, consignee
contact person) all equal the source consignor/owner-name cell — so
they are equal to each other, and all missing together exactly when
that source field is absent.  (The hypotheses keep the grouping column
from overwriting one of the three labels; "区域" satisfies them.) -/
theorem C5_broadcast_copy (g : String) (row : Row)
    (h1 : g ≠ "收货单位名称") (h2 : g ≠ "收获地址简称") (h3 : g ≠ "收货联系人") :
    trGet (targetRecord g row) "收货单位名称" = row.get "货主名称"
      ∧ trGet (targetRecord g row) "收获地址简称" = row.get "货主名称"
      ∧ trGet (targetRecord g row) "收货联系人" = row.get "货主名称" := by
  refine ⟨?_, ?_, ?_⟩
  · rw [trGet_eq_newRowFun _ _ _ (by decide)]
    unfold newRowFun
    rw [if_neg (fun hcg => h1 hcg.symm)]
    rfl
  · rw [trGet_eq_newRowFun _ _ _ (by decide)]
    unfold newRowFun
    rw [if_neg (fun hcg => h2 hcg.symm)]
    rfl
  · rw [trGet_eq_newRowFun _ _ _ (by decide)]
    unfold newRowFun
    rw [if_neg (fun hcg => h3 hcg.symm)]
    rfl

/-- Claim C5 (witness): the broadcast copy at a concrete row carrying
an owner name. -/
theorem C5_witness :
    trGet (targetRecord "区域" rowC5) "收货单位名称" = rowC5.get "货主名称"
      ∧ trGet (targetRecord "区域" rowC5) "收获地址简称" = rowC5.get "货主名称"
      ∧ trGet (targetRecord "区域" rowC5) "收货联系人" = rowC5.get "货主名称" :=
  C5_broadcast_copy "区域" rowC5 (by decide) (by decide) (by decide)

/-- Claim C6: the groups the partitioner emits have pairwise-disjoint
index sets, and the union of their index sets is exactly the set of
record indices whose grouping-column cell is non-missing (so a record
with a missing grouping value belongs to no group). -/
theorem C6_partition (g : String) (df : DF) :
    (uniqueGroupsOf g df).Pairwise
        (fun v w => Disjoint (groupIdxSet g df v) (groupIdxSet g df w))
      ∧ (uniqueGroupsOf g df).toFinset.biUnion (groupIdxSet g df)
          = (Finset.range df.rows.length).filter
              (fun i => ((df.rows.getD i ([] : Row)).get g).isSome) := by
  constructor
  · refine List.Pairwise.imp ?_ (nodup_firstSeen _)
    intro v w hvw
    rw [Finset.disjoint_left]
    intro i hi hiw
    simp only [groupIdxSet, Finset.mem_filter] at hi hiw
    exact hvw (Option.some_injective _ (hi.2.symm.trans hiw.2))
  · ext i
    simp only [Finset.mem_biUnion, List.mem_toFinset, groupIdxSet,
      Finset.mem_filter, Finset.mem_range]
    constructor
    · rintro ⟨v, _, hi, hget⟩
      refine ⟨hi, ?_⟩
      rw [hget]
      rfl
    · rintro ⟨hi, hsome⟩
      rcases Option.isSome_iff_exists.mp hsome with ⟨w, hw⟩
      refine ⟨w, ?_, hi, hw⟩
      refine mem_uniqueGroupsOf g df (df.rows.getD i ([] : Row)) w ?_ hw
      rw [List.getD_eq_getElem _ _ hi]
      exact List.getElem_mem hi

/-- Claim C7: the sum of target-subset row counts over all archive
entries equals the number of mapped records whose carried
grouping-column cell is non-missing, and for each emitted group the
source-subset row count equals the target-subset row count.  (The
hypothesis on the grouping column keeps the reindexed frame free of
duplicate labels, the regime this embedding models; "区域" satisfies
it.) -/
theorem C7_row_count_conservation (g : String) (df : DF)
    (entries : List (String × Sheet)) (_hg : g ∉ TARGET_COLUMNS)
    (hok : transform_and_process g df = Except.ok entries) :
    ((entries.map (fun e => e.2.rows.length)).sum
        = ((df.rows.map (targetRecord g)).filter
            (fun tr => (trGet tr g).isSome)).length)
      ∧ ∀ v ∈ uniqueGroupsOf g df,
          (sourceGroupRows g df v).length = (targetGroupRows g df v).length := by
  constructor
  · unfold transform_and_process at hok
    by_cases hcol : g ∈ df.cols
    · rw [if_pos hcol] at hok
      injection hok with hok
      subst hok
      rw [List.map_map]
      have hcomp :
          ((fun e : String × Sheet => e.2.rows.length) ∘
              (fun p : Nat × Value =>
                (entryName p.2 (p.1 + 1), sheetOf g (targetGroupRows g df p.2))))
            = fun p : Nat × Value => (targetGroupRows g df p.2).length := by
        funext p
        show (sheetOf g (targetGroupRows g df p.2)).rows.length
          = (targetGroupRows g df p.2).length
        exact List.length_map _ _
      rw [hcomp]
      have henum :
          (uniqueGroupsOf g df).enum.map
              (fun p : Nat × Value => (targetGroupRows g df p.2).length)
            = (uniqueGroupsOf g df).map
                (fun v => (targetGroupRows g df v).length) := by
        have hmm :
            (fun p : Nat × Value => (targetGroupRows g df p.2).length)
              = (fun v => (targetGroupRows g df v).length) ∘ Prod.snd := rfl
        rw [hmm, ← List.map_map, List.enum_map_snd]
      rw [henum]
      have hpt : ∀ v ∈ uniqueGroupsOf g df,
          (targetGroupRows g df v).length
            = (df.rows.filter (fun r => r.get g = some v)).length := by
        intro v _
        rw [targetGroupRows_length]
        rfl
      rw [List.map_congr_left hpt, sum_counts_uniqueGroups g df,
        mapped_nonmissing_length g df]
    · rw [if_neg hcol] at hok
      exact absurd hok (by simp)
  · intro v _
    exact (targetGroupRows_length g df v).symm

/-- Claim C7 (witness): the conservation statement at the spec's
example scenario (three grouped rows, one row with a missing grouping
value). -/
theorem C7_witness :
    (("区域" : String) ∉ TARGET_COLUMNS)
      ∧ ((entriesDemo.map (fun e => e.2.rows.length)).sum
          = ((dfDemo.rows.map (targetRecord "区域")).filter
              (fun tr => (trGet tr "区域").isSome)).length)
      ∧ ∀ v ∈ uniqueGroupsOf "区域" dfDemo,
          (sourceGroupRows "区域" dfDemo v).length
            = (targetGroupRows "区域" dfDemo v).length :=
  ⟨by decide, C7_row_count_conservation "区域" dfDemo entriesDemo (by decide) rfl⟩

/-- Claim C8: for every source record and each of the two timestamp
fields, a recognized date/time value is reformatted to the text form
"YYYY/MM/DD HH:MM" (`formatDT`), a present non-date/time value passes
through unchanged, and an absent value yields a missing target field.
(The hypothesis keeps the grouping column from overwriting the
timestamp label; "区域" satisfies it.) -/
theorem C8_timestamp_format (g : String) (row : Row) (c : String)
    (hc : c = "装车时间" ∨ c = "卸货时间") (hg : g ≠ c) :
    (row.get c = none → trGet (targetRecord g row) c = none)
      ∧ (∀ dt, row.get c = some (Value.t dt)
          → trGet (targetRecord g row) c = some (Value.s (formatDT dt)))
      ∧ (∀ str, row.get c = some (Value.s str)
          → trGet (targetRecord g row) c = some (Value.s str))
      ∧ (∀ q, row.get c = some (Value.n q)
          → trGet (targetRecord g row) c = some (Value.n q)) := by
  have hfmt : trGet (targetRecord g row) c = fmtTime (row.get c) := by
    rcases hc with rfl | rfl <;>
    · rw [trGet_eq_newRowFun _ _ _ (by decide)]
      unfold newRowFun
      rw [if_neg (fun hcg => hg hcg.symm)]
      rfl
  refine ⟨?_, ?_, ?_, ?_⟩
  · intro h
    rw [hfmt, h]
    rfl
  · intro dt h
    rw [hfmt, h]
    rfl
  · intro str h
    rw [hfmt, h]
    rfl
  · intro q h
    rw [hfmt, h]
    rfl

/-- Claim C8 (witness): a concrete row whose load-time cell is the
date/time 2024-03-05 07:09:00; the mapped field is the reformatted
text, which is "2024/03/05 07:09". -/
theorem C8_witness :
    rowC8.get "装车时间" = some (Value.t ⟨2024, 3, 5, 7, 9, 0⟩)
      ∧ trGet (targetRecord "区域" rowC8) "装车时间"
          = some (Value.s (formatDT ⟨2024, 3, 5, 7, 9, 0⟩))
      ∧ formatDT ⟨2024, 3, 5, 7, 9, 0⟩ = "2024/03/05 07:09" :=
  ⟨rfl,
    (C8_timestamp_format "区域" rowC8 "装车时间" (Or.inl rfl) (by decide)).2.1
      ⟨2024, 3, 5, 7, 9, 0⟩ rfl,
    by decide⟩

/-- Claim C9: the pipeline is all-or-nothing: it either succeeds with
an archive holding exactly one entry per emitted group, or fails with
a failure signal carrying a descriptive message and no archive at all
— never a partial archive.  (The hypothesis on the grouping column
keeps the run inside the regime this embedding models; "区域"
satisfies it.) -/
theorem C9_fail_fast (g : String) (df : DF) (_hg : g ∉ TARGET_COLUMNS) :
    (∃ entries, transform_and_process g df = Except.ok entries
        ∧ entries.length = (uniqueGroupsOf g df).length)
      ∨ (∃ msg, transform_and_process g df = Except.error msg) := by
  unfold transform_and_process
  by_cases h : g ∈ df.cols
  · left
    refine ⟨_, by rw [if_pos h], ?_⟩
    rw [List.length_map, List.enum_length]
  · right
    exact ⟨_, by rw [if_neg h]⟩

/-- Claim C9 (witness): the all-or-nothing disjunction at the spec's
example scenario. -/
theorem C9_witness :
    (("区域" : String) ∉ TARGET_COLUMNS)
      ∧ ((∃ entries, transform_and_process "区域" dfDemo = Except.ok entries
            ∧ entries.length = (uniqueGroupsOf "区域" dfDemo).length)
          ∨ (∃ msg, transform_and_process "区域" dfDemo = Except.error msg)) :=
  ⟨by decide, C9_fail_fast "区域" dfDemo (by decide)⟩
